import Mathlib

/-! Shallow embedding of the DarkNode backend (src/backend/src/lib.rs and the
node binaries).  Byte strings are `List Nat` with entries below 256; the
external crates (sha2, chacha20poly1305, ed25519-dalek) are modelled as
idealized collision-free primitives, and randomness (OsRng, Uuid::new_v4) is
modelled by explicit seeds threaded through the functions. -/

/-- Byte strings (Rust `Vec<u8>` / `&[u8]`). -/
abbrev Bytes := List Nat

/-- types::CryptoKey - an opaque key byte string. -/
structure CryptoKey where
  bytes : Bytes
deriving DecidableEq

/-- types::EncryptedData - ciphertext, nonce and optional AAD. -/
structure EncryptedData where
  data : Bytes
  nonce : Bytes
  aad : Option Bytes
deriving DecidableEq

/-- Little-endian base-256 value of a byte string. -/
def bytesToNat : Bytes → Nat
  | [] => 0
  | b :: bs => b + 256 * bytesToNat bs

/-- Length-tagged injective encoding of a byte string into a natural. -/
def encBytes (l : Bytes) : Nat := Nat.pair l.length (bytesToNat l)

/-- Idealized collision-free digest standing for the sha2 crate's SHA-256
(used for the derived ChaCha20 key `Sha256(key bytes)` in
CryptoImpl::encrypt/decrypt): deterministic and injective, which is the
property the source relies on. -/
def sha256_ideal (b : Bytes) : Bytes := [encBytes b]

/-- Idealized one-way derivation of an ed25519 public key from the secret
bytes (ed25519_dalek::Keypair::generate). -/
def ed25519PublicOf (secret : Bytes) : Bytes := [Nat.pair 1 (encBytes secret)]

/-- CryptoImpl::generate_keypair, with OsRng modelled by a seed: 32 secret
bytes derived from the seed, and the matching public key. -/
def CryptoImpl.generate_keypair (seed : Nat) : CryptoKey × CryptoKey :=
  let secret := (List.range 32).map (fun i => (seed + i) % 256)
  (⟨ed25519PublicOf secret⟩, ⟨secret⟩)

/-- The ChaCha20 keystream byte for position `i`, idealized. -/
def padByte (key nonce : Bytes) (i : Nat) : Nat :=
  (bytesToNat key + bytesToNat nonce + i) % 256

/-- Idealized ChaCha20 stream encryption of the body bytes. -/
def streamEnc (key nonce : Bytes) : Nat → Bytes → Bytes
  | _, [] => []
  | i, b :: bs => (b + padByte key nonce i) % 256 :: streamEnc key nonce (i + 1) bs

/-- Inverse stream operation used on decryption. -/
def streamDec (key nonce : Bytes) : Nat → Bytes → Bytes
  | _, [] => []
  | i, c :: cs => (c + (256 - padByte key nonce i)) % 256 :: streamDec key nonce (i + 1) cs

/-- Idealized Poly1305 tag: collision-free MAC over key, nonce and the
ciphertext body (an injective pairing, standing for the 16-byte tag that the
chacha20poly1305 AEAD appends on encryption and checks on decryption). -/
def macTag (key nonce body : Bytes) : Nat :=
  Nat.pair (encBytes key) (Nat.pair (encBytes nonce) (encBytes body))

/-- chacha20poly1305 encryption: encrypted body followed by the tag. -/
def aeadEncrypt (key nonce m : Bytes) : Bytes :=
  streamEnc key nonce 0 m ++ [macTag key nonce (streamEnc key nonce 0 m)]

/-- chacha20poly1305 decryption: checks the tag, then decrypts the body;
`none` is the AEAD integrity failure. -/
def aeadDecrypt (key nonce c : Bytes) : Option Bytes :=
  match c.getLast? with
  | none => none
  | some tag =>
    if tag = macTag key nonce c.dropLast then some (streamDec key nonce 0 c.dropLast)
    else none

/-- The 12 nonce bytes OsRng fills in CryptoImpl::encrypt, from a seed. -/
def nonceFromSeed (s : Nat) : Bytes := (List.range 12).map (fun i => s / 256 ^ i % 256)

/-- CryptoImpl::encrypt: derives the symmetric key as SHA-256 of the PUBLIC
key bytes, draws a fresh 12-byte nonce and encrypts with ChaCha20Poly1305. -/
def CryptoImpl.encrypt (m : Bytes) (public_key : CryptoKey) (nonceSeed : Nat) : EncryptedData :=
  ⟨aeadEncrypt (sha256_ideal public_key.bytes) (nonceFromSeed nonceSeed) m,
   nonceFromSeed nonceSeed, none⟩

/-- CryptoImpl::decrypt: derives the symmetric key as SHA-256 of the PRIVATE
key bytes and decrypts; the outer `none` models the panic of
`Nonce::from_slice` on a nonce that is not 12 bytes long. -/
def CryptoImpl.decrypt (d : EncryptedData) (private_key : CryptoKey) :
    Option (Except String Bytes) :=
  if d.nonce.length = 12 then
    some (match aeadDecrypt (sha256_ideal private_key.bytes) d.nonce d.data with
          | some m => Except.ok m
          | none => Except.error "aead error: decryption failure")
  else none

/-- Flip a single bit of a byte string: bit `i % 8` of byte `i / 8`. -/
def flipBit (c : Bytes) (i : Nat) : Bytes :=
  c.set (i / 8) (c.getD (i / 8) 0 ^^^ 2 ^ (i % 8))

theorem getD_append_left : ∀ (l1 l2 : List Nat) (j : Nat), j < l1.length →
    (l1 ++ l2).getD j 0 = l1.getD j 0
  | [], _, j, h => absurd h (by simp)
  | _ :: _, _, 0, _ => rfl
  | _ :: l1, l2, j + 1, h => getD_append_left l1 l2 j (by simpa using h)

theorem getD_concat_self : ∀ (l : List Nat) (a : Nat), (l ++ [a]).getD l.length 0 = a
  | [], _ => rfl
  | _ :: l, a => getD_concat_self l a

theorem getD_set_self : ∀ (l : List Nat) (j v : Nat), j < l.length →
    (l.set j v).getD j 0 = v
  | [], _, _, h => absurd h (by simp)
  | _ :: _, 0, _, _ => rfl
  | _ :: l, j + 1, v, h => getD_set_self l j v (by simpa using h)

theorem getD_mem : ∀ (l : List Nat) (j : Nat), j < l.length → l.getD j 0 ∈ l
  | [], j, h => absurd h (by simp)
  | a :: l, 0, _ => List.mem_cons_self a l
  | _ :: l, j + 1, h => List.mem_cons_of_mem _ (getD_mem l j (by simpa using h))

theorem xor_two_pow_ne (x k : Nat) : x ^^^ 2 ^ k ≠ x := by
  intro h
  have h1 : x ^^^ (x ^^^ 2 ^ k) = x ^^^ x := by rw [h]
  rw [Nat.xor_cancel_left, Nat.xor_self] at h1
  have h2 : 0 < 2 ^ k := Nat.pos_pow_of_pos k (by norm_num)
  omega

theorem streamEnc_lt (key nonce : Bytes) (i : Nat) (m : Bytes) :
    ∀ b ∈ streamEnc key nonce i m, b < 256 := by
  induction m generalizing i with
  | nil => intro b hb; simp [streamEnc] at hb
  | cons a as ih =>
    intro b hb
    simp only [streamEnc, List.mem_cons] at hb
    rcases hb with hb | hb
    · rw [hb]; exact Nat.mod_lt _ (by norm_num)
    · exact ih (i + 1) b hb

theorem streamDec_streamEnc (key nonce : Bytes) (i : Nat) (m : Bytes)
    (hm : ∀ b ∈ m, b < 256) :
    streamDec key nonce i (streamEnc key nonce i m) = m := by
  induction m generalizing i with
  | nil => rfl
  | cons a as ih =>
    simp only [streamEnc, streamDec, List.cons.injEq]
    have hp : padByte key nonce i < 256 := Nat.mod_lt _ (by norm_num)
    have ha : a < 256 := hm a (by simp)
    exact ⟨by omega, ih (i + 1) (fun b hb => hm b (by simp [hb]))⟩

theorem bytesToNat_inj : ∀ (l1 l2 : Bytes), l1.length = l2.length →
    (∀ b ∈ l1, b < 256) → (∀ b ∈ l2, b < 256) →
    bytesToNat l1 = bytesToNat l2 → l1 = l2 := by
  intro l1
  induction l1 with
  | nil =>
    intro l2 hlen _ _ _
    cases l2 with
    | nil => rfl
    | cons c cs => simp at hlen
  | cons b bs ih =>
    intro l2 hlen h1 h2 hval
    cases l2 with
    | nil => simp at hlen
    | cons c cs =>
      simp only [bytesToNat] at hval
      have hb : b < 256 := h1 b (by simp)
      have hc : c < 256 := h2 c (by simp)
      have hbc : b = c ∧ bytesToNat bs = bytesToNat cs := by omega
      have htl : bs = cs :=
        ih cs (by simpa using hlen) (fun x hx => h1 x (by simp [hx]))
          (fun x hx => h2 x (by simp [hx])) hbc.2
      rw [hbc.1, htl]

theorem encBytes_inj (l1 l2 : Bytes) (h1 : ∀ b ∈ l1, b < 256)
    (h2 : ∀ b ∈ l2, b < 256) (h : encBytes l1 = encBytes l2) : l1 = l2 := by
  unfold encBytes at h
  obtain ⟨hlen, hval⟩ := Nat.pair_eq_pair.mp h
  exact bytesToNat_inj l1 l2 hlen h1 h2 hval

theorem aeadDecrypt_concat (key nonce body : Bytes) (t : Nat) :
    aeadDecrypt key nonce (body ++ [t])
      = if t = macTag key nonce body then some (streamDec key nonce 0 body) else none := by
  simp [aeadDecrypt, List.getLast?_concat, List.dropLast_concat]

/-- The modelled AEAD really is an AEAD: the round trip under one and the
same symmetric key recovers the plaintext (so the C1 failure below is a
property of the source's key handling, not of this model). -/
theorem aead_roundtrip (key nonce m : Bytes) (hm : ∀ b ∈ m, b < 256) :
    aeadDecrypt key nonce (aeadEncrypt key nonce m) = some m := by
  unfold aeadEncrypt
  rw [aeadDecrypt_concat, if_pos rfl, streamDec_streamEnc key nonce 0 m hm]

/-- Flipping any single bit of a ciphertext makes the tag check fail. -/
theorem aead_tamper (key nonce m : Bytes) (i : Nat)
    (hi : i < 8 * (aeadEncrypt key nonce m).length) :
    aeadDecrypt key nonce (flipBit (aeadEncrypt key nonce m) i) = none := by
  have hbound : ∀ b ∈ streamEnc key nonce 0 m, b < 256 := streamEnc_lt key nonce 0 m
  set body := streamEnc key nonce 0 m with hbody
  set tag := macTag key nonce body with htag
  have hdata : aeadEncrypt key nonce m = body ++ [tag] := rfl
  rw [hdata] at hi ⊢
  have hn : (body ++ [tag]).length = body.length + 1 := by simp
  rw [hn] at hi
  have hpow : 2 ^ (i % 8) < 256 := by
    calc 2 ^ (i % 8) ≤ 2 ^ 7 := Nat.pow_le_pow_right (by norm_num) (by omega)
      _ < 256 := by norm_num
  rcases Nat.lt_or_ge (i / 8) body.length with hc | hc
  · have hv : (body ++ [tag]).getD (i / 8) 0 = body.getD (i / 8) 0 :=
      getD_append_left body [tag] (i / 8) hc
    have hflip : flipBit (body ++ [tag]) i
        = body.set (i / 8) (body.getD (i / 8) 0 ^^^ 2 ^ (i % 8)) ++ [tag] := by
      simp only [flipBit]
      rw [hv, List.set_append_left _ _ hc]
    rw [hflip, aeadDecrypt_concat]
    have hblt : body.getD (i / 8) 0 < 256 := hbound _ (getD_mem body (i / 8) hc)
    have hvlt : body.getD (i / 8) 0 ^^^ 2 ^ (i % 8) < 256 := by
      have h256 : (256 : Nat) = 2 ^ 8 := by norm_num
      rw [h256] at hblt hpow ⊢
      exact Nat.xor_lt_two_pow hblt hpow
    have hne : ¬ tag = macTag key nonce
        (body.set (i / 8) (body.getD (i / 8) 0 ^^^ 2 ^ (i % 8))) := by
      intro h
      rw [htag] at h
      simp only [macTag] at h
      have h2 := (Nat.pair_eq_pair.mp (Nat.pair_eq_pair.mp h).2).2
      have hsbound : ∀ b ∈ body.set (i / 8) (body.getD (i / 8) 0 ^^^ 2 ^ (i % 8)),
          b < 256 := by
        intro b hb
        rcases List.mem_or_eq_of_mem_set hb with hb1 | hb1
        · exact hbound _ hb1
        · rw [hb1]; exact hvlt
      have heq := encBytes_inj body _ hbound hsbound h2
      have hgd := congrArg (fun l => l.getD (i / 8) 0) heq
      simp only at hgd
      rw [getD_set_self body (i / 8) _ hc] at hgd
      exact xor_two_pow_ne _ _ hgd.symm
    rw [if_neg hne]
  · have hje : i / 8 = body.length := by omega
    have hv : (body ++ [tag]).getD (i / 8) 0 = tag := by
      rw [hje]; exact getD_concat_self body tag
    have hflip : flipBit (body ++ [tag]) i = body ++ [tag ^^^ 2 ^ (i % 8)] := by
      simp only [flipBit]
      rw [hv, hje, List.set_append_right _ _ (le_refl _)]
      simp
    rw [hflip, aeadDecrypt_concat]
    have hne : ¬ tag ^^^ 2 ^ (i % 8) = macTag key nonce body := by
      rw [← htag]
      exact xor_two_pow_ne tag (i % 8)
    rw [if_neg hne]

/-- C1 (code bug): for the keypair produced by generate_keypair, the round
trip decrypt(encrypt(m, pk), sk) does NOT return m: encrypt keys the AEAD
with SHA-256 of the public-key bytes while decrypt keys it with SHA-256 of
the private-key bytes, which differ, so the tag check fails and decrypt
returns an integrity error.  Shown at m = [1, 2, 3], key seed 0, nonce
seed 0. -/
theorem c1_roundtrip_broken :
    CryptoImpl.decrypt
        (CryptoImpl.encrypt [1, 2, 3] (CryptoImpl.generate_keypair 0).1 0)
        (CryptoImpl.generate_keypair 0).2
      = some (Except.error "aead error: decryption failure") := rfl

/-- C5: flipping any single bit of a ciphertext produced by
CryptoImpl::encrypt makes CryptoImpl::decrypt (under the matching key bytes,
the ones the corresponding hop derives its ChaCha20 key from) return the
integrity error, never a successful decode.  The nonce stays 12 bytes, so
the `some` records that `Nonce::from_slice` does not panic. -/
theorem c5_tamper_detected (m : Bytes) (k : CryptoKey) (s i : Nat)
    (hi : i < 8 * (CryptoImpl.encrypt m k s).data.length) :
    CryptoImpl.decrypt
        ⟨flipBit (CryptoImpl.encrypt m k s).data i,
         (CryptoImpl.encrypt m k s).nonce, (CryptoImpl.encrypt m k s).aad⟩ k
      = some (Except.error "aead error: decryption failure") := by
  have h12 : (nonceFromSeed s).length = 12 := by simp [nonceFromSeed]
  have ht := aead_tamper (sha256_ideal k.bytes) (nonceFromSeed s) m i
    (by simpa [CryptoImpl.encrypt] using hi)
  simp [CryptoImpl.decrypt, CryptoImpl.encrypt, h12, ht]

/-- A concrete key for the C5 witness. -/
def demoKey : CryptoKey := (CryptoImpl.generate_keypair 3).1

/-- Witness for C5 at m = [5], nonce seed 7, bit 0. -/
theorem c5_witness :
    CryptoImpl.decrypt
        ⟨flipBit (CryptoImpl.encrypt [5] demoKey 7).data 0,
         (CryptoImpl.encrypt [5] demoKey 7).nonce, (CryptoImpl.encrypt [5] demoKey 7).aad⟩
        demoKey
      = some (Except.error "aead error: decryption failure") :=
  c5_tamper_detected [5] demoKey 7 0 (by decide)

/-- Model of an `f32` as used by the provider logic: either NaN or an exact
rational value (only comparisons are performed on it in the source). -/
inductive F32 where
  | nan
  | val (q : ℚ)
deriving DecidableEq

/-- Rust `f32::partial_cmp`: `none` when either side is NaN. -/
def F32.pcmp : F32 → F32 → Option Ordering
  | .val a, .val b => some (if a < b then .lt else if b < a then .gt else .eq)
  | _, _ => none

def F32.isNan : F32 → Bool
  | .nan => true
  | .val _ => false

/-- The rational value of a non-NaN f32 (0 for NaN, never used there). -/
def F32.ratVal : F32 → ℚ
  | .nan => 0
  | .val q => q

/-- types::RpcProvider; Uuid ids and Durations are modelled as naturals. -/
structure RpcProvider where
  id : Nat
  url : String
  provider_type : String
  active : Bool
  success_rate : F32
  avg_latency : Nat
  last_checked : Nat
deriving DecidableEq

/-- The comparator MockRpcManager::get_best_provider passes to max_by,
`a.success_rate.partial_cmp(&b.success_rate)`, before its unwrap. -/
def srCmp (a b : RpcProvider) : Option Ordering := a.success_rate.pcmp b.success_rate

/-- Rust `Iterator::max_by` as a fold: the accumulator survives only on
Greater, so ties go to the LATER element; the `none` outcome models the
panic of the `.unwrap()` in the comparator on incomparable values. -/
def max_by_go (cmp : RpcProvider → RpcProvider → Option Ordering) (acc : RpcProvider) :
    List RpcProvider → Option RpcProvider
  | [] => some acc
  | y :: ys =>
    match cmp acc y with
    | none => none
    | some .gt => max_by_go cmp acc ys
    | some _ => max_by_go cmp y ys

/-- MockRpcManager::get_best_provider (identical in coordinator.rs and
exit_node.rs): keep the active providers, return Ok(None) for the empty set,
otherwise max_by success_rate; the outer `none` is the unwrap panic. -/
def get_best_provider (ps : List RpcProvider) : Option (Option RpcProvider) :=
  match ps.filter (fun p => p.active) with
  | [] => some none
  | x :: xs =>
    match max_by_go srCmp x xs with
    | none => none
    | some r => some (some r)

theorem F32.eq_val_of_not_nan {a : F32} (h : a.isNan = false) : ∃ q, a = F32.val q := by
  cases a with
  | nan => simp [F32.isNan] at h
  | val q => exact ⟨q, rfl⟩

/-- On a NaN-free list, max_by never panics and returns a member that is
maximal for success_rate (the last such member in iteration order). -/
theorem max_by_go_spec (xs : List RpcProvider) (acc : RpcProvider)
    (hnn : ∀ y ∈ acc :: xs, y.success_rate.isNan = false) :
    ∃ r, max_by_go srCmp acc xs = some r ∧ r ∈ acc :: xs ∧
      ∀ y ∈ acc :: xs, y.success_rate.ratVal ≤ r.success_rate.ratVal := by
  induction xs generalizing acc with
  | nil =>
    refine ⟨acc, rfl, by simp, ?_⟩
    intro y hy
    simp only [List.mem_cons, List.not_mem_nil, or_false] at hy
    rw [hy]
  | cons y ys ih =>
    obtain ⟨qa, hqa⟩ := F32.eq_val_of_not_nan (hnn acc (by simp))
    obtain ⟨qy, hqy⟩ := F32.eq_val_of_not_nan (hnn y (by simp))
    rcases lt_trichotomy qa qy with hlt | heq | hgt
    · have hcmp : srCmp acc y = some Ordering.lt := by
        simp [srCmp, F32.pcmp, hqa, hqy, hlt]
      obtain ⟨r, hr, hmem, hmax⟩ := ih y (fun z hz => hnn z (by
        rcases List.mem_cons.mp hz with h1 | h1
        · simp [h1]
        · simp [h1]))
      refine ⟨r, by simp [max_by_go, hcmp, hr], ?_, ?_⟩
      · rcases List.mem_cons.mp hmem with h1 | h1
        · simp [h1]
        · simp [h1]
      · intro z hz
        rcases List.mem_cons.mp hz with h1 | h1
        · have hy2 := hmax y (by simp)
          rw [h1, hqa]
          rw [hqy] at hy2
          simp only [F32.ratVal] at hy2 ⊢
          exact le_trans (le_of_lt hlt) hy2
        · exact hmax z h1
    · have hcmp : srCmp acc y = some Ordering.eq := by
        simp [srCmp, F32.pcmp, hqa, hqy, heq]
      obtain ⟨r, hr, hmem, hmax⟩ := ih y (fun z hz => hnn z (by
        rcases List.mem_cons.mp hz with h1 | h1
        · simp [h1]
        · simp [h1]))
      refine ⟨r, by simp [max_by_go, hcmp, hr], ?_, ?_⟩
      · rcases List.mem_cons.mp hmem with h1 | h1
        · simp [h1]
        · simp [h1]
      · intro z hz
        rcases List.mem_cons.mp hz with h1 | h1
        · have hy2 := hmax y (by simp)
          rw [h1, hqa]
          rw [hqy] at hy2
          simp only [F32.ratVal] at hy2 ⊢
          rw [heq]
          exact hy2
        · exact hmax z h1
    · have h1 : ¬ qa < qy := not_lt.mpr (le_of_lt hgt)
      have hcmp : srCmp acc y = some Ordering.gt := by
        simp [srCmp, F32.pcmp, hqa, hqy, h1, hgt]
      obtain ⟨r, hr, hmem, hmax⟩ := ih acc (fun z hz => hnn z (by
        rcases List.mem_cons.mp hz with h2 | h2
        · simp [h2]
        · simp [h2]))
      refine ⟨r, by simp [max_by_go, hcmp, hr], ?_, ?_⟩
      · rcases List.mem_cons.mp hmem with h2 | h2
        · simp [h2]
        · simp [h2]
      · intro z hz
        rcases List.mem_cons.mp hz with h2 | h2
        · exact hmax z (by simp [h2])
        · rcases List.mem_cons.mp h2 with h3 | h3
          · have hacc := hmax acc (by simp)
            rw [h3, hqy]
            rw [hqa] at hacc
            simp only [F32.ratVal] at hacc ⊢
            exact le_trans (le_of_lt hgt) hacc
          · exact hmax z (by simp [h3])

/-- The exact rational 0.99, given in lowest terms so the kernel can
evaluate comparisons on it. -/
def rat99 : ℚ := ⟨99, 100, by decide, by decide⟩

/-- The exact rational 0.98 (= 49/50) in lowest terms. -/
def rat98 : ℚ := ⟨49, 50, by decide, by decide⟩

/-- The exact rational 0.5 in lowest terms. -/
def ratHalf : ℚ := ⟨1, 2, by decide, by decide⟩

/-- The first mock provider of MockRpcManager::new: success_rate 0.99,
100 ms latency (id 0 standing for its Uuid). -/
def provA : RpcProvider :=
  ⟨0, "https://api.mainnet-beta.solana.com", "solana", true, F32.val rat99, 100, 0⟩

/-- The second mock provider of MockRpcManager::new: success_rate 0.98,
120 ms latency. -/
def provB : RpcProvider :=
  ⟨1, "https://solana-api.projectserum.com", "solana", true, F32.val rat98, 120, 0⟩

/-- provA after the admin toggles `active` off. -/
def provAInactive : RpcProvider :=
  ⟨0, "https://api.mainnet-beta.solana.com", "solana", false, F32.val rat99, 100, 0⟩

/-- provB after the admin toggles `active` off. -/
def provBInactive : RpcProvider :=
  ⟨1, "https://solana-api.projectserum.com", "solana", false, F32.val rat98, 120, 0⟩

/-- Two active providers with equal success rates; tieLow has the lower
avg_latency and the lower id. -/
def tieLow : RpcProvider := ⟨0, "low", "solana", true, F32.val ratHalf, 10, 0⟩

/-- The equal-rate provider with the higher avg_latency and id. -/
def tieHigh : RpcProvider := ⟨1, "high", "solana", true, F32.val ratHalf, 20, 0⟩

/-- An active provider whose success_rate is NaN. -/
def nanProv1 : RpcProvider := ⟨0, "nan1", "solana", true, F32.nan, 10, 0⟩

/-- A second active provider whose success_rate is NaN. -/
def nanProv2 : RpcProvider := ⟨1, "nan2", "solana", true, F32.nan, 20, 0⟩

theorem get_best_provider_eq_nil (ps : List RpcProvider)
    (hf : ps.filter (fun p => p.active) = []) : get_best_provider ps = some none := by
  unfold get_best_provider
  rw [hf]

theorem get_best_provider_eq_cons (ps : List RpcProvider) (x : RpcProvider)
    (xs : List RpcProvider) (hf : ps.filter (fun p => p.active) = x :: xs) :
    get_best_provider ps
      = match max_by_go srCmp x xs with
        | none => none
        | some r => some (some r) := by
  unfold get_best_provider
  rw [hf]

/-- C2 counterexample: two active providers with equal success_rate, where
the claimed tie-break (lowest avg_latency, then lowest id) would pick
tieLow, but the code's Iterator::max_by keeps the LAST maximal element and
get_best_provider returns tieHigh. -/
theorem c2_counterexample :
    tieLow.success_rate = tieHigh.success_rate ∧
    tieLow.active = true ∧ tieHigh.active = true ∧
    tieLow.avg_latency < tieHigh.avg_latency ∧ tieLow.id < tieHigh.id ∧
    get_best_provider [tieLow, tieHigh] = some (some tieHigh) ∧
    tieHigh ≠ tieLow := by decide

/-- C2 (amended): over any provider set whose active members have non-NaN
success rates, get_best_provider returns None when no provider is active and
otherwise an active provider of maximal success_rate, with ties broken
deterministically by iteration order (the LAST maximal active provider), not
by avg_latency or id; the claim's concrete 0.99/0.98 examples hold as
stated, and on an exact tie the later provider is returned. -/
theorem c2_best_provider_amended :
    (∀ ps : List RpcProvider,
        (∀ p ∈ ps, p.active = true → p.success_rate.isNan = false) →
        (ps.filter (fun p => p.active) = [] → get_best_provider ps = some none) ∧
        (∀ p, get_best_provider ps = some (some p) →
            p ∈ ps ∧ p.active = true ∧
            ∀ q ∈ ps, q.active = true →
              q.success_rate.ratVal ≤ p.success_rate.ratVal) ∧
        (ps.filter (fun p => p.active) ≠ [] →
            ∃ p, get_best_provider ps = some (some p))) ∧
    get_best_provider [provA, provB] = some (some provA) ∧
    get_best_provider [provAInactive, provB] = some (some provB) ∧
    get_best_provider [provAInactive, provBInactive] = some none ∧
    get_best_provider [tieLow, tieHigh] = some (some tieHigh) := by
  refine ⟨?_, by decide, by decide, by decide, by decide⟩
  intro ps hnn
  cases hf : ps.filter (fun p => p.active) with
  | nil =>
    refine ⟨fun _ => get_best_provider_eq_nil ps hf, ?_, fun h => absurd rfl h⟩
    intro p hp
    rw [get_best_provider_eq_nil ps hf] at hp
    simp at hp
  | cons x xs =>
    have hnn2 : ∀ y ∈ x :: xs, y.success_rate.isNan = false := by
      intro y hy
      rw [← hf] at hy
      have hy2 := List.mem_filter.mp hy
      exact hnn y hy2.1 hy2.2
    obtain ⟨r, hr, hmem, hmax⟩ := max_by_go_spec xs x hnn2
    have hgb : get_best_provider ps = some (some r) := by
      rw [get_best_provider_eq_cons ps x xs hf, hr]
    refine ⟨fun h => absurd h (by simp), ?_, fun _ => ⟨r, hgb⟩⟩
    intro p hp
    rw [hgb] at hp
    simp only [Option.some.injEq] at hp
    rw [← hp]
    rw [← hf] at hmem
    have hrf := List.mem_filter.mp hmem
    refine ⟨hrf.1, hrf.2, ?_⟩
    intro q hq hqa
    have hqf : q ∈ x :: xs := by
      rw [← hf]
      exact List.mem_filter.mpr ⟨hq, hqa⟩
    exact hmax q hqf

/-- Witness for the C2 amended theorem: applied to the two mock providers,
the returned provA dominates provB's success rate. -/
theorem c2_witness :
    provB.success_rate.ratVal ≤ provA.success_rate.ratVal := by
  have h := (c2_best_provider_amended.1 [provA, provB] (by decide)).2.1 provA (by decide)
  exact h.2.2 provB (by decide) rfl

/-- C9: get_best_provider returns without the panic whenever every active
provider's success_rate is comparable (non-NaN), while with two active NaN
providers the `partial_cmp(..).unwrap()` inside max_by panics (the `none`
outcome of the model). -/
theorem c9_nan_panic :
    (∀ ps : List RpcProvider,
        (∀ p ∈ ps, p.active = true → p.success_rate.isNan = false) →
        (get_best_provider ps).isSome = true) ∧
    (nanProv1.active = true ∧ nanProv2.active = true ∧
     nanProv1.success_rate.pcmp nanProv2.success_rate = none ∧
     get_best_provider [nanProv1, nanProv2] = none) := by
  constructor
  · intro ps hnn
    cases hf : ps.filter (fun p => p.active) with
    | nil => rw [get_best_provider_eq_nil ps hf]; rfl
    | cons x xs =>
      have hnn2 : ∀ y ∈ x :: xs, y.success_rate.isNan = false := by
        intro y hy
        rw [← hf] at hy
        have hy2 := List.mem_filter.mp hy
        exact hnn y hy2.1 hy2.2
      obtain ⟨r, hr, _, _⟩ := max_by_go_spec xs x hnn2
      rw [get_best_provider_eq_cons ps x xs hf, hr]
      rfl
  · exact ⟨rfl, rfl, rfl, by decide⟩

/-- Witness for C9: a singleton active provider set evaluates without the
panic. -/
theorem c9_witness : (get_best_provider [provA]).isSome = true :=
  c9_nan_panic.1 [provA] (by decide)

/-- types::NodeRole. -/
inductive NodeRole where
  | entry
  | routing
  | exit
  | coordinator
deriving DecidableEq

/-- types::NodeStatus. -/
inductive NodeStatus where
  | online
  | busy
  | offline
  | maintenance
deriving DecidableEq

/-- types::Node; NodeId and SystemTime are modelled as naturals, IpAddr as a
string. -/
structure Node where
  id : Nat
  role : NodeRole
  status : NodeStatus
  public_key : CryptoKey
  ip_address : String
  port : Nat
  last_seen : Nat
  region : String
  load : F32
deriving DecidableEq

/-- MockNodeManager::get_available_nodes (identical in the three binaries):
the nodes of the requested role whose status is Online. -/
def get_available_nodes (nodes : List Node) (role : NodeRole) : List Node :=
  nodes.filter (fun n => decide (n.role = role ∧ n.status = NodeStatus.online))

/-- types::Circuit (node ids and times as naturals). -/
structure Circuit where
  id : Nat
  entry_node : Nat
  routing_nodes : List Nat
  exit_node : Nat
  symmetric_keys : List CryptoKey
  created_at : Nat
  expires_at : Nat
deriving DecidableEq

/-- RouterImpl::create_circuit (lib.rs): picks the first available Entry and
Exit nodes, always selects two routing hops - routing_nodes[0] and
routing_nodes[1 % len] - generates one keypair per hop (len + 2 of them)
keeping the public halves as the "symmetric keys", and stamps a one-hour
expiry.  Uuid::new_v4 and the keypair randomness are drawn from `seed`;
`now` is SystemTime::now() in seconds. -/
def create_circuit (nodes : List Node) (seed now : Nat) : Except String Circuit :=
  match get_available_nodes nodes NodeRole.entry with
  | [] => Except.error "No available entry nodes"
  | e :: _ =>
    match get_available_nodes nodes NodeRole.routing with
    | [] => Except.error "No available routing nodes"
    | r0 :: rest =>
      let selected := [r0.id, ((r0 :: rest).getD (1 % (r0 :: rest).length) r0).id]
      match get_available_nodes nodes NodeRole.exit with
      | [] => Except.error "No available exit nodes"
      | x :: _ =>
        Except.ok
          ⟨seed, e.id, selected, x.id,
           (List.range (selected.length + 2)).map
             (fun i => (CryptoImpl.generate_keypair (seed + 1 + i)).1),
           now, now + 3600⟩

/-- MockRouter::create_circuit (entry_node.rs): fresh mock node ids, two
routing hops, len + 2 generated public keys, one-hour expiry. -/
def MockRouter.create_circuit (seed now : Nat) : Circuit :=
  ⟨seed, seed + 3, [seed + 1, seed + 2], seed + 4,
   (List.range ([seed + 1, seed + 2].length + 2)).map
     (fun i => (CryptoImpl.generate_keypair (seed + 5 + i)).1),
   now, now + 3600⟩

theorem create_circuit_ok_spec (nodes : List Node) (seed now : Nat) (c : Circuit)
    (h : create_circuit nodes seed now = Except.ok c) :
    c.expires_at = now + 3600 ∧
    c.symmetric_keys.length = c.routing_nodes.length + 2 := by
  simp only [create_circuit] at h
  split at h
  · exact absurd h (by simp)
  · split at h
    · exact absurd h (by simp)
    · split at h
      · exact absurd h (by simp)
      · simp only [Except.ok.injEq] at h
        rw [← h]
        simp

/-- C3: every circuit returned by RouterImpl::create_circuit, and every
circuit built by MockRouter::create_circuit, carries exactly
routing_nodes.length + 2 symmetric keys (entry + routing hops + exit). -/
theorem c3_key_count :
    (∀ (nodes : List Node) (seed now : Nat) (c : Circuit),
        create_circuit nodes seed now = Except.ok c →
        c.symmetric_keys.length = c.routing_nodes.length + 2) ∧
    (∀ seed now : Nat,
        (MockRouter.create_circuit seed now).symmetric_keys.length
          = (MockRouter.create_circuit seed now).routing_nodes.length + 2) := by
  constructor
  · intro nodes seed now c h
    exact (create_circuit_ok_spec nodes seed now c h).2
  · intro seed now
    simp [MockRouter.create_circuit]

/-- First demo node: an Online Entry node. -/
def rat0 : ℚ := ⟨0, 1, by decide, by decide⟩

/-- An Online Entry node for witnesses. -/
def demoEntryNode : Node :=
  ⟨1, NodeRole.entry, NodeStatus.online, ⟨[1]⟩, "10.0.0.1", 3000, 0, "us-east", F32.val rat0⟩

/-- An Online Routing node for witnesses. -/
def demoRoutingNode : Node :=
  ⟨2, NodeRole.routing, NodeStatus.online, ⟨[2]⟩, "10.0.0.2", 3001, 0, "eu-west", F32.val rat0⟩

/-- A second Online Routing node for witnesses. -/
def demoRoutingNode2 : Node :=
  ⟨3, NodeRole.routing, NodeStatus.online, ⟨[3]⟩, "10.0.0.3", 3002, 0, "ap-south", F32.val rat0⟩

/-- An Online Exit node for witnesses. -/
def demoExitNode : Node :=
  ⟨4, NodeRole.exit, NodeStatus.online, ⟨[4]⟩, "10.0.0.4", 3003, 0, "us-west", F32.val rat0⟩

/-- A full topology: one entry, two routing, one exit node, all Online. -/
def demoNodes : List Node := [demoEntryNode, demoRoutingNode, demoRoutingNode2, demoExitNode]

/-- A topology with no Exit node at all. -/
def demoNodesNoExit : List Node := [demoEntryNode, demoRoutingNode, demoRoutingNode2]

/-- A topology with exactly one Online Routing node. -/
def demoNodesOneRouting : List Node := [demoEntryNode, demoRoutingNode, demoExitNode]

/-- A default circuit used only to unpack Except values in witnesses. -/
def fallbackCircuit : Circuit := ⟨0, 0, [], 0, [], 0, 0⟩

/-- The circuit create_circuit builds over demoNodes at seed 0, time 0. -/
def demoBuiltCircuit : Circuit :=
  (create_circuit demoNodes 0 0).toOption.getD fallbackCircuit

/-- Witness for C3 on the circuit built over demoNodes. -/
theorem c3_witness :
    demoBuiltCircuit.symmetric_keys.length = demoBuiltCircuit.routing_nodes.length + 2 :=
  c3_key_count.1 demoNodes 0 0 demoBuiltCircuit rfl

/-- C10: when exactly one Routing node is available, create_circuit uses it
for BOTH routing hops (routing_nodes[1 % 1] is routing_nodes[0] again), so
the hops of a circuit need not be distinct nodes. -/
theorem c10_duplicate_routing_hop (nodes : List Node) (seed now : Nat) (r : Node)
    (c : Circuit) (hone : get_available_nodes nodes NodeRole.routing = [r])
    (hok : create_circuit nodes seed now = Except.ok c) :
    c.routing_nodes = [r.id, r.id] := by
  simp only [create_circuit, hone] at hok
  split at hok
  · exact absurd hok (by simp)
  · split at hok
    · exact absurd hok (by simp)
    · simp only [Except.ok.injEq] at hok
      rw [← hok]
      norm_num [List.getD]

/-- The circuit built over the single-routing-node topology. -/
def demoBuiltCircuitOne : Circuit :=
  (create_circuit demoNodesOneRouting 0 0).toOption.getD fallbackCircuit

/-- Witness for C10 over demoNodesOneRouting. -/
theorem c10_witness :
    demoBuiltCircuitOne.routing_nodes = [demoRoutingNode.id, demoRoutingNode.id] :=
  c10_duplicate_routing_hop demoNodesOneRouting 0 0 demoRoutingNode
    demoBuiltCircuitOne rfl rfl

/-- EntryNodeService::get_or_create_circuit (lib.rs): return the cached
circuit for the api key when it has not expired (`expires_at > now` at
lookup time), otherwise build a fresh circuit through the router and insert
it under the key; a router error propagates and the cache is unchanged.
The DashMap is an association list with first-match lookup, insertion
prepending (which shadows any older entry, as DashMap::insert replaces). -/
def get_or_create_circuit (nodes : List Node) (seed now : Nat)
    (cache : List (String × Circuit)) (api_key : String) :
    Except String Circuit × List (String × Circuit) :=
  let fresh :=
    match create_circuit nodes seed now with
    | Except.ok c => (Except.ok c, (api_key, c) :: cache)
    | Except.error e => (Except.error e, cache)
  match cache.lookup api_key with
  | some c => if now < c.expires_at then (Except.ok c, cache) else fresh
  | none => fresh

/-- C4: a cached circuit whose expires_at has passed is never returned by
get_or_create_circuit; whenever the call succeeds it instead returns a fresh
circuit (expiring strictly later than now) and caches it for the client. -/
theorem c4_expired_never_returned (nodes : List Node) (seed now : Nat)
    (cache : List (String × Circuit)) (api_key : String) (c : Circuit)
    (hc : cache.lookup api_key = some c) (hexp : c.expires_at ≤ now) :
    (get_or_create_circuit nodes seed now cache api_key).1 ≠ Except.ok c ∧
    ∀ c2 cache2,
      get_or_create_circuit nodes seed now cache api_key = (Except.ok c2, cache2) →
      now < c2.expires_at ∧ cache2 = (api_key, c2) :: cache := by
  have hnot : ¬ now < c.expires_at := by omega
  simp only [get_or_create_circuit, hc, if_neg hnot]
  cases hcc : create_circuit nodes seed now with
  | error e =>
    constructor
    · intro h
      simp at h
    · intro c2 cache2 h
      simp at h
  | ok c2 =>
    have hfresh : now < c2.expires_at := by
      have := (create_circuit_ok_spec nodes seed now c2 hcc).1
      omega
    constructor
    · intro h
      simp only [Except.ok.injEq] at h
      rw [h] at hfresh
      omega
    · intro c3 cache3 h
      simp only [Prod.mk.injEq, Except.ok.injEq] at h
      obtain ⟨h1, h2⟩ := h
      rw [← h1, ← h2]
      exact ⟨hfresh, rfl⟩

/-- A cached circuit that expired at time 5. -/
def demoExpiredCircuit : Circuit := ⟨77, 1, [2, 3], 4, [⟨[9]⟩], 0, 5⟩

/-- Witness for C4: at now = 10 the expired cached circuit is not returned. -/
theorem c4_witness :
    (get_or_create_circuit demoNodes 0 10 [("k", demoExpiredCircuit)] "k").1
      ≠ Except.ok demoExpiredCircuit :=
  (c4_expired_never_returned demoNodes 0 10 [("k", demoExpiredCircuit)] "k"
    demoExpiredCircuit rfl (by decide)).1

/-- A cached circuit still valid at time 0 (expires at 100). -/
def demoValidCircuit : Circuit := ⟨77, 1, [2, 3], 4, [⟨[9]⟩, ⟨[10]⟩, ⟨[11]⟩, ⟨[12]⟩], 0, 100⟩

/-- C6 counterexample: NO Online Exit node exists, yet get_or_create_circuit
does not fail - the client's cached circuit is still valid, so it is
returned and no node pool is ever consulted. -/
theorem c6_counterexample :
    get_available_nodes demoNodesNoExit NodeRole.exit = [] ∧
    get_or_create_circuit demoNodesNoExit 0 0 [("k", demoValidCircuit)] "k"
      = (Except.ok demoValidCircuit, [("k", demoValidCircuit)]) := ⟨rfl, rfl⟩

/-- C6 (amended): when the client has no unexpired cached circuit and Online
Entry and Routing nodes exist but no Online Exit node does,
get_or_create_circuit fails with the no-available-exit-nodes error and the
circuit cache is left unchanged (no partial circuit is inserted). -/
theorem c6_no_exit_amended (nodes : List Node) (seed now : Nat)
    (cache : List (String × Circuit)) (api_key : String)
    (hcache : ∀ c, cache.lookup api_key = some c → c.expires_at ≤ now)
    (hentry : get_available_nodes nodes NodeRole.entry ≠ [])
    (hrouting : get_available_nodes nodes NodeRole.routing ≠ [])
    (hexit : get_available_nodes nodes NodeRole.exit = []) :
    get_or_create_circuit nodes seed now cache api_key
      = (Except.error "No available exit nodes", cache) := by
  have hcc : create_circuit nodes seed now = Except.error "No available exit nodes" := by
    obtain ⟨e, etail, he⟩ := List.exists_cons_of_ne_nil hentry
    obtain ⟨r, rtail, hr⟩ := List.exists_cons_of_ne_nil hrouting
    simp only [create_circuit, he, hr, hexit]
  simp only [get_or_create_circuit, hcc]
  cases hl : cache.lookup api_key with
  | none => rfl
  | some c =>
    have hle := hcache c hl
    have hnot : ¬ now < c.expires_at := by omega
    simp [hnot]

/-- Witness for C6 amended: empty cache over the no-exit topology at
now = 5. -/
theorem c6_witness :
    get_or_create_circuit demoNodesNoExit 0 5 [] "k"
      = (Except.error "No available exit nodes", []) :=
  c6_no_exit_amended demoNodesNoExit 0 5 [] "k"
    (fun c h => by simp at h) (by decide) (by decide) (by decide)

/-- types::RpcMapping. -/
structure RpcMapping where
  id : Nat
  original_rpc : String
  darknode_https_rpc : String
  darknode_wss_rpc : String
  created_at : Nat
deriving DecidableEq

/-- types::User. -/
structure User where
  id : Nat
  wallet_address : String
  api_key : String
  active : Bool
  expires_at : Option Nat
  rpc_mappings : List RpcMapping
deriving DecidableEq

/-- The entry-node error outcomes: the two auth bail-outs of
EntryNodeService::handle_request, and `other` for every error propagated
with `?` from a collaborator (user store, sanitizer, router). -/
inductive EntryError where
  | invalidApiKey
  | subscriptionInactive
  | other (msg : String)
deriving DecidableEq

/-- The pipeline EntryNodeService::handle_request runs after successful
authentication: sanitize, get-or-create circuit, send through the circuit,
await the response, prepare it for the client.  The collaborators are the
injected trait objects of the service, passed here as functions. -/
def EntryNodeService.afterAuth (sanitize : Bytes → Except String Bytes)
    (circuitStep : Except String Circuit)
    (send : Circuit → Bytes → Except String Nat)
    (recv : Nat → Except String Bytes)
    (prepare : Bytes → Except String Bytes)
    (request : Bytes) : Except EntryError Bytes :=
  match sanitize request with
  | Except.error e => Except.error (EntryError.other e)
  | Except.ok sanitized =>
    match circuitStep with
    | Except.error e => Except.error (EntryError.other e)
    | Except.ok circuit =>
      match send circuit sanitized with
      | Except.error e => Except.error (EntryError.other e)
      | Except.ok requestId =>
        match recv requestId with
        | Except.error e => Except.error (EntryError.other e)
        | Except.ok response =>
          match prepare response with
          | Except.error e => Except.error (EntryError.other e)
          | Except.ok prepared => Except.ok prepared

/-- EntryNodeService::handle_request (lib.rs): look the user up by api key,
bail with the invalid-key error when absent and with the
inactive-subscription error when present but not active, then run the
post-auth pipeline. -/
def EntryNodeService.handle_request (lookup : Except String (Option User))
    (sanitize : Bytes → Except String Bytes) (circuitStep : Except String Circuit)
    (send : Circuit → Bytes → Except String Nat) (recv : Nat → Except String Bytes)
    (prepare : Bytes → Except String Bytes) (request : Bytes) : Except EntryError Bytes :=
  match lookup with
  | Except.error e => Except.error (EntryError.other e)
  | Except.ok none => Except.error EntryError.invalidApiKey
  | Except.ok (some user) =>
    if user.active then
      EntryNodeService.afterAuth sanitize circuitStep send recv prepare request
    else Except.error EntryError.subscriptionInactive

theorem afterAuth_error_other (sanitize : Bytes → Except String Bytes)
    (circuitStep : Except String Circuit) (send : Circuit → Bytes → Except String Nat)
    (recv : Nat → Except String Bytes) (prepare : Bytes → Except String Bytes)
    (request : Bytes) (e : EntryError)
    (h : EntryNodeService.afterAuth sanitize circuitStep send recv prepare request
          = Except.error e) :
    ∃ msg, e = EntryError.other msg := by
  unfold EntryNodeService.afterAuth at h
  cases hs : sanitize request with
  | error e1 =>
    simp only [hs, Except.error.injEq] at h
    exact ⟨e1, h.symm⟩
  | ok sanitized =>
    simp only [hs] at h
    cases hc : circuitStep with
    | error e1 =>
      simp only [hc, Except.error.injEq] at h
      exact ⟨e1, h.symm⟩
    | ok circuit =>
      simp only [hc] at h
      cases hsend : send circuit sanitized with
      | error e1 =>
        simp only [hsend, Except.error.injEq] at h
        exact ⟨e1, h.symm⟩
      | ok requestId =>
        simp only [hsend] at h
        cases hrecv : recv requestId with
        | error e1 =>
          simp only [hrecv, Except.error.injEq] at h
          exact ⟨e1, h.symm⟩
        | ok response =>
          simp only [hrecv] at h
          cases hprep : prepare response with
          | error e1 =>
            simp only [hprep, Except.error.injEq] at h
            exact ⟨e1, h.symm⟩
          | ok prepared =>
            simp only [hprep] at h
            simp at h

/-- C7: EntryNodeService::handle_request fails with the invalid-API-key
error exactly when the user lookup yields no user, fails with the
subscription-inactive error exactly when it yields a user whose active flag
is false, and for an active user runs exactly the post-authentication
pipeline (sanitize, circuit, send, receive, prepare). -/
theorem c7_auth_gating (lookup : Except String (Option User))
    (sanitize : Bytes → Except String Bytes) (circuitStep : Except String Circuit)
    (send : Circuit → Bytes → Except String Nat) (recv : Nat → Except String Bytes)
    (prepare : Bytes → Except String Bytes) (request : Bytes) :
    (EntryNodeService.handle_request lookup sanitize circuitStep send recv prepare request
        = Except.error EntryError.invalidApiKey ↔ lookup = Except.ok none) ∧
    (EntryNodeService.handle_request lookup sanitize circuitStep send recv prepare request
        = Except.error EntryError.subscriptionInactive
      ↔ ∃ u, lookup = Except.ok (some u) ∧ u.active = false) ∧
    (∀ u, lookup = Except.ok (some u) → u.active = true →
        EntryNodeService.handle_request lookup sanitize circuitStep send recv prepare request
          = EntryNodeService.afterAuth sanitize circuitStep send recv prepare request) := by
  cases lookup with
  | error e =>
    refine ⟨⟨fun h => ?_, fun h => by simp at h⟩, ⟨fun h => ?_, fun h => ?_⟩,
      fun u h => by simp at h⟩
    · simp [EntryNodeService.handle_request] at h
    · simp [EntryNodeService.handle_request] at h
    · obtain ⟨u, hu, _⟩ := h
      simp at hu
  | ok ou =>
    cases ou with
    | none =>
      refine ⟨⟨fun _ => rfl, fun _ => rfl⟩, ⟨fun h => ?_, fun h => ?_⟩,
        fun u h => by simp at h⟩
      · simp [EntryNodeService.handle_request] at h
      · obtain ⟨u, hu, _⟩ := h
        simp at hu
    | some u =>
      by_cases ha : u.active
      · have hrun : EntryNodeService.handle_request (Except.ok (some u)) sanitize
            circuitStep send recv prepare request
            = EntryNodeService.afterAuth sanitize circuitStep send recv prepare request := by
          simp [EntryNodeService.handle_request, ha]
        refine ⟨⟨fun h => ?_, fun h => by simp at h⟩, ⟨fun h => ?_, fun h => ?_⟩,
          fun u2 h2 h3 => hrun⟩
        · rw [hrun] at h
          obtain ⟨msg, hmsg⟩ :=
            afterAuth_error_other sanitize circuitStep send recv prepare request _ h
          exact absurd hmsg (by simp)
        · rw [hrun] at h
          obtain ⟨msg, hmsg⟩ :=
            afterAuth_error_other sanitize circuitStep send recv prepare request _ h
          exact absurd hmsg (by simp)
        · obtain ⟨u2, hu2, hact⟩ := h
          simp only [Except.ok.injEq, Option.some.injEq] at hu2
          rw [← hu2] at hact
          rw [ha] at hact
          simp at hact
      · have ha2 : u.active = false := by simpa using ha
        have hrun : EntryNodeService.handle_request (Except.ok (some u)) sanitize
            circuitStep send recv prepare request
            = Except.error EntryError.subscriptionInactive := by
          simp [EntryNodeService.handle_request, ha2]
        refine ⟨⟨fun h => ?_, fun h => by simp at h⟩,
          ⟨fun _ => ⟨u, rfl, ha2⟩, fun _ => hrun⟩, fun u2 h2 h3 => ?_⟩
        · rw [hrun] at h
          simp at h
        · simp only [Except.ok.injEq, Option.some.injEq] at h2
          rw [← h2] at h3
          rw [h3] at ha2
          simp at ha2

/-- A user with an active subscription. -/
def demoUser : User := ⟨1, "wallet1", "api-key-1", true, none, []⟩

/-- Witness for C7: when the lookup finds no user, the call fails with the
invalid-API-key error, under concrete collaborator functions. -/
theorem c7_witness :
    EntryNodeService.handle_request (Except.ok none) (fun b => Except.ok b)
      (Except.ok fallbackCircuit) (fun _ _ => Except.ok 1) (fun _ => Except.ok [1])
      (fun b => Except.ok b) [1, 2]
      = Except.error EntryError.invalidApiKey :=
  (c7_auth_gating (Except.ok none) (fun b => Except.ok b) (Except.ok fallbackCircuit)
    (fun _ _ => Except.ok 1) (fun _ => Except.ok [1]) (fun b => Except.ok b) [1, 2]).1.mpr rfl

/-- types::Request (Uuid and CircuitId as naturals). -/
structure Request where
  id : Nat
  circuit_id : Nat
  payload : EncryptedData
  created_at : Nat
deriving DecidableEq

/-- types::Response. -/
structure Response where
  request_id : Nat
  circuit_id : Nat
  payload : EncryptedData
  created_at : Nat
deriving DecidableEq

/-- ExitNodeService::handle_request (lib.rs) composed with the wired-in
MockRpcManager::get_best_provider (exit_node.rs): pick the best provider,
bailing with the no-available-providers error when there is none, then build
the Response echoing the request id, circuit id and payload with a fresh
timestamp.  The outer `none` is the provider selection's unwrap panic. -/
def ExitNodeService.handle_request (ps : List RpcProvider) (req : Request) (now : Nat) :
    Option (Except String Response) :=
  match get_best_provider ps with
  | none => none
  | some none => some (Except.error "No available RPC providers")
  | some (some _) => some (Except.ok ⟨req.id, req.circuit_id, req.payload, now⟩)

/-- A concrete request for witnesses. -/
def demoRequest : Request := ⟨42, 7, ⟨[1, 2], [0], none⟩, 0⟩

/-- C8 counterexample: two active providers exist, so the claim demands a
Response whose ids echo the request, but their NaN success rates make the
provider selection panic, and handle_request returns neither a response nor
the no-providers error. -/
theorem c8_counterexample :
    nanProv1.active = true ∧ nanProv2.active = true ∧
    ExitNodeService.handle_request [nanProv1, nanProv2] demoRequest 0 = none :=
  ⟨rfl, rfl, rfl⟩

/-- C8 (amended): provided every active provider's success_rate is
comparable (non-NaN), ExitNodeService::handle_request returns, when any
active provider exists, the Response whose request_id and circuit_id echo
the request (with the request's payload, stamped `now`), and fails with the
no-available-providers error when no provider is active. -/
theorem c8_response_correlation_amended (ps : List RpcProvider) (req : Request) (now : Nat)
    (hnn : ∀ p ∈ ps, p.active = true → p.success_rate.isNan = false) :
    ((∃ p ∈ ps, p.active = true) →
      ExitNodeService.handle_request ps req now
        = some (Except.ok ⟨req.id, req.circuit_id, req.payload, now⟩)) ∧
    ((∀ p ∈ ps, p.active = false) →
      ExitNodeService.handle_request ps req now
        = some (Except.error "No available RPC providers")) := by
  constructor
  · rintro ⟨p, hp, hpa⟩
    cases hfc : ps.filter (fun q => q.active) with
    | nil =>
      have hmem := List.mem_filter.mpr ⟨hp, hpa⟩
      rw [hfc] at hmem
      simp at hmem
    | cons x xs =>
      have hnn2 : ∀ y ∈ x :: xs, y.success_rate.isNan = false := by
        intro y hy
        rw [← hfc] at hy
        have hy2 := List.mem_filter.mp hy
        exact hnn y hy2.1 hy2.2
      obtain ⟨r, hr, _, _⟩ := max_by_go_spec xs x hnn2
      unfold ExitNodeService.handle_request
      rw [get_best_provider_eq_cons ps x xs hfc, hr]
  · intro hall
    have hf : ps.filter (fun q => q.active) = [] := by
      rw [List.filter_eq_nil_iff]
      intro a ha
      simp [hall a ha]
    unfold ExitNodeService.handle_request
    rw [get_best_provider_eq_nil ps hf]

/-- Witness for C8 amended: with the two mock providers the response echoes
demoRequest's request id and circuit id. -/
theorem c8_witness :
    ExitNodeService.handle_request [provA, provB] demoRequest 5
      = some (Except.ok ⟨demoRequest.id, demoRequest.circuit_id, demoRequest.payload, 5⟩) :=
  (c8_response_correlation_amended [provA, provB] demoRequest 5 (by decide)).1
    ⟨provA, by decide, rfl⟩
